import Mathlib

/-!
Verification of the sub2api protocol-translation core against its design
specification.

The definitions below are a shallow embedding of the Go sources:
  - backend/internal/pkg/antigravity/request_transformer.go
    (schema sanitizer, Claude → Gemini request transformer)
  - backend/internal/service (AntigravityGatewayService: Forward /
    ForwardGemini retry loops, streaming usage accumulation)

Conventions of the embedding:
  - Go `map[string]any` JSON trees become the inductive `JSON` type; objects
    are association lists (Go maps are unordered, so list order is a
    representation choice; lookups use the first matching key, which agrees
    with Go's unique-key maps on all decoded inputs).
  - JSON numbers are modelled as `Int`: every numeric field the verified
    properties touch is an integer token count, and the sanitizer passes
    numbers through untouched.
  - Go `strings.ToUpper` is embedded per-character with `Char.toUpper`
    (identical to Go for ASCII, which is all the schema dialect uses), and
    `strings.TrimSpace` with `String.trim` (ASCII whitespace).
  - Side effects that do not change results (logging, the one-time warning
    set) are dropped.
-/

/-- JSON value tree, the shallow embedding of Go's decoded `any`. -/
inductive JSON where
  | null : JSON
  | bool (b : Bool) : JSON
  | num (n : Int) : JSON
  | str (s : String) : JSON
  | arr (elems : List JSON) : JSON
  | obj (fields : List (String × JSON)) : JSON
deriving Repr

/-- Embedding of Go `strings.ToUpper` (ASCII range, as used by the schema
sanitizer's type names). -/
def goToUpper (s : String) : String :=
  ⟨s.data.map Char.toUpper⟩

/-- Whitespace test of Go `strings.TrimSpace` (ASCII whitespace; the
blank-or-not distinction is all the verified properties depend on). -/
def isGoSpace (c : Char) : Bool :=
  c = ' ' ∨ c = '\t' ∨ c = '\n' ∨ c = '\x0b' ∨ c = '\x0c' ∨ c = '\r'

/-- Embedding of Go `strings.TrimSpace`. -/
def goTrim (s : String) : String :=
  ⟨((s.data.dropWhile isGoSpace).reverse.dropWhile isGoSpace).reverse⟩

/-- Embedding of Go `strings.HasPrefix`. -/
def goStartsWith (s pre : String) : Bool :=
  pre.data.isPrefixOf s.data

/-- Scan for a substring at every suffix position (helper for
`goContains`). -/
def containsAux (sub : List Char) : List Char → Bool
  | [] => sub.isEmpty
  | c :: rest => if sub.isPrefixOf (c :: rest) then true else containsAux sub rest

/-- Embedding of Go `strings.Contains`. -/
def goContains (s sub : String) : Bool :=
  if sub.data.isEmpty then true else containsAux sub.data s.data

/-- First-match lookup in an association list, the embedding of Go map
indexing `m[k]`. -/
def lookupKey : List (String × JSON) → String → Option JSON
  | [], _ => none
  | (k, v) :: rest, key => if k = key then some v else lookupKey rest key

/-- Replace the value of the first occurrence of a key (append when absent),
the embedding of Go map assignment `m[k] = v`. -/
def setKey : List (String × JSON) → String → JSON → List (String × JSON)
  | [], key, v => [(key, v)]
  | (k, w) :: rest, key, v =>
    if k = key then (k, v) :: rest else (k, w) :: setKey rest key v

/-- Remove every occurrence of a key, the embedding of Go `delete(m, k)`. -/
def eraseKey : List (String × JSON) → String → List (String × JSON)
  | [], _ => []
  | (k, w) :: rest, key =>
    if k = key then eraseKey rest key else (k, w) :: eraseKey rest key

/-- Embedding of `excludedSchemaKeys` from request_transformer.go: schema
keywords the target backend does not accept. -/
def excludedSchemaKeys : List String :=
  ["$schema", "$id", "$ref",
   "minLength", "maxLength", "pattern",
   "minimum", "maximum", "exclusiveMinimum", "exclusiveMaximum", "multipleOf",
   "uniqueItems", "minItems", "maxItems",
   "oneOf", "anyOf", "allOf", "not", "if", "then", "else", "$defs",
   "definitions",
   "minProperties", "maxProperties", "patternProperties", "propertyNames",
   "dependencies", "dependentSchemas", "dependentRequired",
   "default", "const", "examples", "deprecated", "readOnly", "writeOnly",
   "contentMediaType", "contentEncoding",
   "strict"]

/-- Embedding of `cleanTypeValue`: uppercase a string type; collapse a type
array to its first non-null string member (defaulting to STRING). -/
def cleanTypeValue : JSON → JSON
  | .str s => .str (goToUpper s)
  | .arr ts =>
    match ts.findSome? (fun t =>
        match t with
        | .str s => if s ≠ "null" then some s else none
        | _ => none) with
    | some s => .str (goToUpper s)
    | none => .str "STRING"
  | v => v

mutual

/-- Embedding of `cleanSchemaValue`: recursively rewrite a schema tree into
the restricted dialect (the path argument of the Go code only feeds the
one-time diagnostic and is dropped). -/
def cleanSchemaValue : JSON → JSON
  | .obj fields => .obj (cleanFields fields)
  | .arr elems => .arr (cleanArr elems)
  | v => v

/-- Embedding of the field loop inside `cleanSchemaValue`. -/
def cleanFields : List (String × JSON) → List (String × JSON)
  | [] => []
  | (k, v) :: rest =>
    if excludedSchemaKeys.contains k then cleanFields rest
    else if k = "type" then (k, cleanTypeValue v) :: cleanFields rest
    else if k = "format" then
      match v with
      | .str f =>
        if f = "date-time" ∨ f = "date" ∨ f = "time" then
          (k, .str f) :: cleanFields rest
        else cleanFields rest
      | _ => cleanFields rest
    else if k = "additionalProperties" then
      match v with
      | .bool b => (k, .bool b) :: cleanFields rest
      | _ => (k, .bool false) :: cleanFields rest
    else (k, cleanSchemaValue v) :: cleanFields rest

/-- Embedding of the array loop inside `cleanSchemaValue`. -/
def cleanArr : List JSON → List JSON
  | [] => []
  | x :: xs => cleanSchemaValue x :: cleanArr xs

end

/-- Embedding of the type-default statement of `cleanJSONSchema`: ensure a
top-level type, defaulting to OBJECT. -/
def ensureType (result : List (String × JSON)) : List (String × JSON) :=
  if (lookupKey result "type").isNone then result ++ [("type", .str "OBJECT")]
  else result

/-- Embedding of the properties-default statement of `cleanJSONSchema`:
ensure a top-level properties map, defaulting to empty. -/
def ensureProps (result : List (String × JSON)) : List (String × JSON) :=
  if (lookupKey result "properties").isNone then result ++ [("properties", .obj [])]
  else result

/-- The two default-insertion statements of `cleanJSONSchema` in sequence. -/
def ensureDefaults (result : List (String × JSON)) : List (String × JSON) :=
  ensureProps (ensureType result)

/-- The `validRequired` list computed by `cleanJSONSchema`: the required
entries that are strings naming an existing property. -/
def validRequiredOf (required : List JSON) (props : List (String × JSON)) : List JSON :=
  required.filter (fun r =>
    match r with
    | .str name => (lookupKey props name).isSome
    | _ => false)

/-- Embedding of the required-validation block of `cleanJSONSchema`: drop
top-level required entries that do not name an existing property; delete the
key when the filtered list is empty. -/
def fixRequired (result : List (String × JSON)) : List (String × JSON) :=
  match lookupKey result "required", lookupKey result "properties" with
  | some (.arr required), some (.obj props) =>
    if (validRequiredOf required props).isEmpty then eraseKey result "required"
    else setKey result "required" (.arr (validRequiredOf required props))
  | _, _ => result

/-- Embedding of `cleanJSONSchema`: clean the tree, default the top-level
type and properties, and filter the top-level required list against the
top-level properties. -/
def cleanJSONSchema (schema : List (String × JSON)) : List (String × JSON) :=
  fixRequired (ensureDefaults (cleanFields schema))

/-- Per-pair form of the `cleanFields` loop body (proof device: `cleanFields`
is shown equal to `List.filterMap cleanPair`). -/
def cleanPair (p : String × JSON) : Option (String × JSON) :=
  if excludedSchemaKeys.contains p.1 then none
  else if p.1 = "type" then some (p.1, cleanTypeValue p.2)
  else if p.1 = "format" then
    match p.2 with
    | .str f =>
      if f = "date-time" ∨ f = "date" ∨ f = "time" then some (p.1, .str f)
      else none
    | _ => none
  else if p.1 = "additionalProperties" then
    match p.2 with
    | .bool b => some (p.1, .bool b)
    | _ => some (p.1, .bool false)
  else some (p.1, cleanSchemaValue p.2)

mutual

/-- Statement of the claimed invariant (spec wording, not source code): at
every level of the tree, a `required` array next to a `properties` map names
only existing properties and is never the empty array. -/
def requiredHonored : JSON → Bool
  | .obj fields =>
    (match lookupKey fields "required", lookupKey fields "properties" with
     | some (.arr rs), some (.obj ps) =>
       !rs.isEmpty && rs.all (fun r =>
         match r with
         | .str name => (lookupKey ps name).isSome
         | _ => true)
     | _, _ => true)
    && requiredHonoredFields fields
  | .arr elems => requiredHonoredArr elems
  | _ => true

/-- Field traversal for `requiredHonored`. -/
def requiredHonoredFields : List (String × JSON) → Bool
  | [] => true
  | (_, v) :: rest => requiredHonored v && requiredHonoredFields rest

/-- Array traversal for `requiredHonored`. -/
def requiredHonoredArr : List JSON → Bool
  | [] => true
  | x :: xs => requiredHonored x && requiredHonoredArr xs

end

/-! Data model of the Claude → Gemini request transformer.  The Go struct
declarations live outside the excerpted sources; the fields below are
reconstructed from their uses in request_transformer.go (and §3 of the
design spec).  JSON numbers in pass-through sampling fields are modelled as
rationals. -/

/-- Gemini inline (base64) image data. -/
structure GeminiInlineData where
  mimeType : String
  data : String
deriving Repr, DecidableEq

/-- Gemini function-call part payload. -/
structure GeminiFunctionCall where
  name : String
  args : JSON
  id : String
deriving Repr

/-- Gemini function-response part payload; the Go code wraps the reduced
text as `map\x7b"result": text\x7d`, modelled here by the `result` field. -/
structure GeminiFunctionResponse where
  name : String
  result : String
  id : String
deriving Repr, DecidableEq

/-- One Gemini content part (Go zero values as defaults). -/
structure GeminiPart where
  text : String := ""
  thought : Bool := false
  thoughtSignature : String := ""
  inlineData : Option GeminiInlineData := none
  functionCall : Option GeminiFunctionCall := none
  functionResponse : Option GeminiFunctionResponse := none
deriving Repr

/-- One Gemini content entry (role plus parts). -/
structure GeminiContent where
  role : String
  parts : List GeminiPart
deriving Repr

/-- Claude image source (`type`, `media_type`, `data`). -/
structure ImageSource where
  type : String
  mediaType : String
  data : String
deriving Repr, DecidableEq

/-- Claude content block, the tagged union over
text/thinking/image/tool_use/tool_result; `content := none` models an absent
(length-zero) raw `tool_result` content. -/
structure ContentBlock where
  type : String
  text : String := ""
  thinking : String := ""
  signature : String := ""
  source : Option ImageSource := none
  id : String := ""
  name : String := ""
  input : JSON := .null
  toolUseID : String := ""
  isError : Bool := false
  content : Option JSON := none
deriving Repr

/-- Message content: the Go code first tries to decode a JSON string and
then an array of content blocks; the two legal outcomes are modelled as a
sum. -/
inductive ClaudeContent where
  | str (s : String)
  | blocks (bs : List ContentBlock)
deriving Repr

/-- One Claude message. -/
structure ClaudeMessage where
  role : String
  content : ClaudeContent
deriving Repr

/-- Claude thinking configuration (`type`, `budget_tokens`). -/
structure ClaudeThinking where
  type : String
  budgetTokens : Int := 0
deriving Repr, DecidableEq

/-- Claude per-conversation metadata (`user_id`). -/
structure ClaudeMetadata where
  userID : String := ""
deriving Repr, DecidableEq

/-- Claude request, restricted to the fields the transformer reads.  The
`system` prompt and `tools` array are omitted: no verified property touches
`systemInstruction` or tool declarations. -/
structure ClaudeRequest where
  model : String
  messages : List ClaudeMessage
  thinking : Option ClaudeThinking := none
  metadata : Option ClaudeMetadata := none
  stream : Bool := false
  temperature : Option Rat := none
  topP : Option Rat := none
  topK : Option Int := none
deriving Repr

/-- Embedding of the `dummyThoughtSignature` constant used to bypass
thought-signature validation on Gemini-family backends. -/
def dummyThoughtSignature : String := "skip_thought_signature_validator"

/-- Embedding of `parseToolResultContent`'s empty-result fallbacks. -/
def toolResultEmptySentinel (isError : Bool) : String :=
  if isError then "Tool execution failed with no output."
  else "Command executed successfully."

mutual

/-- Canonical serialization standing in for Go `string(content)` on the raw
JSON fallback path of `parseToolResultContent` (exact formatting is
irrelevant to every property proved). -/
def jsonSerialize : JSON → String
  | .null => "null"
  | .bool true => "true"
  | .bool false => "false"
  | .num n => toString n
  | .str s => "\"" ++ s ++ "\""
  | .arr xs => "[" ++ jsonSerializeArr xs ++ "]"
  | .obj fields => "\x7b" ++ jsonSerializeFields fields ++ "\x7d"

/-- Array element serialization for `jsonSerialize`. -/
def jsonSerializeArr : List JSON → String
  | [] => ""
  | [x] => jsonSerialize x
  | x :: xs => jsonSerialize x ++ "," ++ jsonSerializeArr xs

/-- Field serialization for `jsonSerialize`. -/
def jsonSerializeFields : List (String × JSON) → String
  | [] => ""
  | [(k, v)] => "\"" ++ k ++ "\":" ++ jsonSerialize v
  | (k, v) :: rest => "\"" ++ k ++ "\":" ++ jsonSerialize v ++ "," ++ jsonSerializeFields rest

end

/-- Embedding of `parseToolResultContent`: absent content yields a fixed
sentinel; a JSON string is used directly (sentinel when blank); an array of
objects is reduced to its newline-joined `text` members (sentinel when
blank); anything else falls back to the raw JSON.  A JSON `null` decodes
into a Go string as the empty string, hence the sentinel. -/
def parseToolResultContent (content : Option JSON) (isError : Bool) : String :=
  match content with
  | none => toolResultEmptySentinel isError
  | some .null => toolResultEmptySentinel isError
  | some (.str s) =>
    if goTrim s = "" then toolResultEmptySentinel isError else s
  | some (.arr items) =>
    if items.all (fun it =>
        match it with
        | .obj _ => true
        | .null => true
        | _ => false) then
      let texts := items.filterMap (fun it =>
        match it with
        | .obj fields =>
          match lookupKey fields "text" with
          | some (.str t) => some t
          | _ => none
        | _ => none)
      let result := String.intercalate "\n" texts
      if goTrim result = "" then toolResultEmptySentinel isError else result
    else jsonSerialize (.arr items)
  | some v => jsonSerialize v

/-- State threaded through the per-block transform: accumulated parts, the
thinking-downgrade flag, and the ToolIdentityMap (`tool_use` id → name;
most-recent insertion first, matching Go map overwrite). -/
structure PartsState where
  parts : List GeminiPart := []
  strippedThinking : Bool := false
  toolIDToName : List (String × String) := []
deriving Repr

/-- ToolIdentityMap lookup (latest insertion wins, as for a Go map). -/
def lookupToolName : List (String × String) → String → Option String
  | [], _ => none
  | (id, name) :: rest, key => if id = key then some name else lookupToolName rest key

/-- Embedding of the per-block switch inside `buildParts`. -/
def buildPartsBlock (allowDummyThought : Bool) (st : PartsState) (block : ContentBlock) :
    PartsState :=
  if block.type = "text" then
    if block.text ≠ "(no content)" ∧ goTrim block.text ≠ "" then
      { st with parts := st.parts ++ [{ text := block.text }] }
    else st
  else if block.type = "thinking" then
    if block.signature ≠ "" then
      { st with parts := st.parts ++
          [{ text := block.thinking, thought := true, thoughtSignature := block.signature }] }
    else if ¬ allowDummyThought then
      let st' :=
        if goTrim block.thinking ≠ "" then
          { st with parts := st.parts ++ [{ text := block.thinking }] }
        else st
      { st' with strippedThinking := true }
    else
      { st with parts := st.parts ++
          [{ text := block.thinking, thought := true,
             thoughtSignature := dummyThoughtSignature }] }
  else if block.type = "image" then
    match block.source with
    | some src =>
      if src.type = "base64" then
        { st with parts := st.parts ++
            [{ inlineData := some ⟨src.mediaType, src.data⟩ }] }
      else st
    | none => st
  else if block.type = "tool_use" then
    let m :=
      if block.id ≠ "" ∧ block.name ≠ "" then (block.id, block.name) :: st.toolIDToName
      else st.toolIDToName
    let sig :=
      if allowDummyThought then dummyThoughtSignature
      else if block.signature ≠ "" ∧ block.signature ≠ dummyThoughtSignature then
        block.signature
      else ""
    { st with
      toolIDToName := m
      parts := st.parts ++
        [{ functionCall := some ⟨block.name, block.input, block.id⟩,
           thoughtSignature := sig }] }
  else if block.type = "tool_result" then
    let funcName :=
      if block.name ≠ "" then block.name
      else
        match lookupToolName st.toolIDToName block.toolUseID with
        | some n => n
        | none => block.toolUseID
    { st with parts := st.parts ++
        [{ functionResponse := some
            ⟨funcName, parseToolResultContent block.content block.isError,
             block.toolUseID⟩ }] }
  else st

/-- Embedding of `buildParts`: a plain string becomes one trimmed text part
(dropped when blank or the "(no content)" sentinel); a block array is folded
through the per-block switch. -/
def buildParts (content : ClaudeContent) (toolIDToName : List (String × String))
    (allowDummyThought : Bool) : PartsState :=
  match content with
  | .str textContent =>
    if textContent ≠ "(no content)" ∧ goTrim textContent ≠ "" then
      ⟨[{ text := goTrim textContent }], false, toolIDToName⟩
    else ⟨[], false, toolIDToName⟩
  | .blocks blocks =>
    blocks.foldl (buildPartsBlock allowDummyThought) ⟨[], false, toolIDToName⟩

/-- Synthetic leading thought part prepended by the pre-fill workaround. -/
def dummyThinkingPart : GeminiPart :=
  { text := "Thinking...", thought := true, thoughtSignature := dummyThoughtSignature }

/-- Result of `buildContents`: contents, the thinking-downgrade flag, and
the final ToolIdentityMap. -/
structure ContentsResult where
  contents : List GeminiContent
  strippedThinking : Bool
  toolIDToName : List (String × String)
deriving Repr

/-- Embedding of `buildContents`: map roles, transform blocks, prepend the
synthetic thought part only on the last message when it is an
assistant/model message with thinking requested under the dummy-signature
policy and no thought part of its own, and drop messages whose parts came
out empty. -/
def buildContents : List ClaudeMessage → List (String × String) → Bool → Bool → ContentsResult
  | [], m, _, _ => ⟨[], false, m⟩
  | msg :: rest, m, isThinkingEnabled, allowDummyThought =>
    let role := if msg.role = "assistant" then "model" else msg.role
    let st := buildParts msg.content m allowDummyThought
    let parts :=
      if allowDummyThought ∧ role = "model" ∧ isThinkingEnabled ∧ rest.isEmpty
          ∧ ¬ (st.parts.any (fun p => p.thought)) ∧ ¬ st.parts.isEmpty then
        dummyThinkingPart :: st.parts
      else st.parts
    let restResult := buildContents rest st.toolIDToName isThinkingEnabled allowDummyThought
    ⟨(if parts.isEmpty then restResult.contents else ⟨role, parts⟩ :: restResult.contents),
     st.strippedThinking || restResult.strippedThinking,
     restResult.toolIDToName⟩

/-- Claim-side reference (spec wording): the same per-message transform with
the synthetic-thought prepend step removed, used to state that non-final
messages are transformed without it. -/
def buildContentsNoDummy : List ClaudeMessage → List (String × String) → Bool → ContentsResult
  | [], m, _ => ⟨[], false, m⟩
  | msg :: rest, m, allowDummyThought =>
    let role := if msg.role = "assistant" then "model" else msg.role
    let st := buildParts msg.content m allowDummyThought
    let restResult := buildContentsNoDummy rest st.toolIDToName allowDummyThought
    ⟨(if st.parts.isEmpty then restResult.contents
      else ⟨role, st.parts⟩ :: restResult.contents),
     st.strippedThinking || restResult.strippedThinking,
     restResult.toolIDToName⟩

/-- Gemini thinking configuration. -/
structure GeminiThinkingConfig where
  includeThoughts : Bool := false
  thinkingBudget : Int := 0
deriving Repr, DecidableEq

/-- Gemini generation configuration (fields the embedded code writes). -/
structure GeminiGenerationConfig where
  maxOutputTokens : Int
  stopSequences : List String
  thinkingConfig : Option GeminiThinkingConfig := none
  temperature : Option Rat := none
  topP : Option Rat := none
  topK : Option Int := none
deriving Repr, DecidableEq

/-- Modelled from the spec: the fixed stop-sequence list
(`DefaultStopSequences`) lives outside the excerpted sources; its value is
irrelevant to every property proved. -/
def DefaultStopSequences : List String := []

/-- Embedding of `buildGenerationConfig`: fixed output ceiling and stop
sequences; thinking config with includeThoughts and a budget capped at 24576
when the request's model string contains "gemini-2.5-flash"; sampling
parameters passed through. -/
def buildGenerationConfig (req : ClaudeRequest) : GeminiGenerationConfig :=
  let config : GeminiGenerationConfig :=
    { maxOutputTokens := 64000, stopSequences := DefaultStopSequences }
  let config :=
    match req.thinking with
    | some th =>
      if th.type = "enabled" then
        let tc : GeminiThinkingConfig := { includeThoughts := true }
        let tc :=
          if th.budgetTokens > 0 then
            let budget := th.budgetTokens
            let budget :=
              if goContains req.model "gemini-2.5-flash" ∧ budget > 24576 then 24576
              else budget
            { tc with thinkingBudget := budget }
          else tc
        { config with thinkingConfig := some tc }
      else config
    | none => config
  { config with temperature := req.temperature, topP := req.topP, topK := req.topK }

/-- Gemini-shaped inner request, restricted to the fields the verified
properties touch (systemInstruction, tools, toolConfig and the fixed safety
settings are omitted; no claim depends on them). -/
structure GeminiRequest where
  contents : List GeminiContent
  generationConfig : Option GeminiGenerationConfig := none
  sessionID : String := ""
deriving Repr

/-- Whether the request asks for thinking (`thinking.type == "enabled"`). -/
def thinkingRequested (req : ClaudeRequest) : Bool :=
  match req.thinking with
  | some th => th.type = "enabled"
  | none => false

/-- Embedding of `TransformClaudeToGeminiWithOptions` (default options; the
unused projectID parameter and the omitted systemInstruction/tools stages
are noted on `GeminiRequest`): build contents, disable thinking when a
thinking block had to be downgraded, and build the generation config. -/
def transformClaudeToGemini (claudeReq : ClaudeRequest) (mappedModel : String) : GeminiRequest :=
  let isThinkingEnabled := thinkingRequested claudeReq
  let allowDummyThought := goStartsWith mappedModel "gemini-"
  let res := buildContents claudeReq.messages [] isThinkingEnabled allowDummyThought
  let reqForConfig :=
    if res.strippedThinking then { claudeReq with thinking := none } else claudeReq
  let generationConfig := buildGenerationConfig reqForConfig
  let sessionID :=
    match claudeReq.metadata with
    | some md => if md.userID ≠ "" then md.userID else ""
    | none => ""
  { contents := res.contents
    generationConfig := some generationConfig
    sessionID := sessionID }

/-- Embedding of `antigravitySupportedModels`. -/
def antigravitySupportedModels : List String :=
  ["claude-opus-4-5-thinking", "claude-sonnet-4-5", "claude-sonnet-4-5-thinking",
   "gemini-2.5-flash", "gemini-2.5-flash-lite", "gemini-2.5-flash-thinking",
   "gemini-3-flash", "gemini-3-pro-low", "gemini-3-pro-high",
   "gemini-3-pro-preview", "gemini-3-pro-image"]

/-- Embedding of `antigravityModelMapping` (system default model map). -/
def antigravityModelMapping : List (String × String) :=
  [("claude-3-5-sonnet-20241022", "claude-sonnet-4-5"),
   ("claude-3-5-sonnet-20240620", "claude-sonnet-4-5"),
   ("claude-sonnet-4-5-20250929", "claude-sonnet-4-5-thinking"),
   ("claude-opus-4", "claude-opus-4-5-thinking"),
   ("claude-opus-4-5-20251101", "claude-opus-4-5-thinking"),
   ("claude-haiku-4", "gemini-3-flash"),
   ("claude-haiku-4-5", "gemini-3-flash"),
   ("claude-3-haiku-20240307", "gemini-3-flash"),
   ("claude-haiku-4-5-20251001", "gemini-3-flash")]

/-- Account record, restricted to its model-override table. -/
structure Account where
  modelMapping : List (String × String) := []

/-- Modelled from the spec: `Account.GetMappedModel` is "an account-level
model-name override lookup" whose declaration lives outside the excerpted
sources; an absent override returns the requested name unchanged. -/
def accountGetMappedModel (a : Account) (requested : String) : String :=
  match a.modelMapping.lookup requested with
  | some v => v
  | none => requested

/-- Embedding of `getMappedModel`: account override, then the system map,
then gemini-prefix pass-through, then directly supported models, then the
hard-coded fallback. -/
def getMappedModel (account : Account) (requestedModel : String) : String :=
  let mapped := accountGetMappedModel account requestedModel
  if mapped ≠ requestedModel then mapped
  else
    match antigravityModelMapping.lookup requestedModel with
    | some m => m
    | none =>
      if goStartsWith requestedModel "gemini-" then requestedModel
      else if antigravitySupportedModels.contains requestedModel then requestedModel
      else "claude-sonnet-4-5"

/-- Usage snapshot (Go `ClaudeUsage`, four integer token counters). -/
structure ClaudeUsage where
  inputTokens : Int := 0
  outputTokens : Int := 0
  cacheCreationInputTokens : Int := 0
  cacheReadInputTokens : Int := 0
deriving Repr, DecidableEq

/-- One SSE data payload as seen by `parseClaudeSSEUsage`, classified by its
`type` field: a `message_start` carries `message.usage`, a `message_delta`
carries a top-level `usage`, and anything else carries no usage update. -/
inductive SSEUsageEvent where
  | messageStart (u : ClaudeUsage)
  | messageDelta (u : ClaudeUsage)
  | other
deriving Repr, DecidableEq

/-- Embedding of `parseClaudeSSEUsage`: `message_start` overwrites the
input/cache counters (and leaves output alone); `message_delta` overwrites
output unconditionally and fills input/cache only when still zero. -/
def parseClaudeSSEUsage (ev : SSEUsageEvent) (usage : ClaudeUsage) : ClaudeUsage :=
  match ev with
  | .messageStart u =>
    { usage with
      inputTokens := u.inputTokens
      cacheCreationInputTokens := u.cacheCreationInputTokens
      cacheReadInputTokens := u.cacheReadInputTokens }
  | .messageDelta u =>
    let usage := { usage with outputTokens := u.outputTokens }
    let usage :=
      if usage.inputTokens = 0 then { usage with inputTokens := u.inputTokens }
      else usage
    let usage :=
      if usage.cacheCreationInputTokens = 0 then
        { usage with cacheCreationInputTokens := u.cacheCreationInputTokens }
      else usage
    if usage.cacheReadInputTokens = 0 then
      { usage with cacheReadInputTokens := u.cacheReadInputTokens }
    else usage
  | .other => usage

/-- The streaming loop of `handleStreamingResponse` restricted to its usage
accumulation: each non-empty, non-terminal data line updates the snapshot in
order. -/
def accumClaudeSSEUsage (events : List SSEUsageEvent) (usage : ClaudeUsage) : ClaudeUsage :=
  events.foldl (fun u ev => parseClaudeSSEUsage ev u) usage

/-! Forwarding/retry engine.  The HTTP exchange is abstracted by a function
from the attempt number (1-based) to the upstream outcome; the loop is
modelled with structural fuel equal to the remaining retries
(`antigravityMaxRetries - attempt`), so the fuel-exhausted branch is
unreachable from the entry points. -/

/-- Embedding of `antigravityMaxRetries`. -/
def antigravityMaxRetries : Nat := 5

/-- Upstream outcome of one attempt: a transport-level failure (no response)
or an HTTP status. -/
inductive UpstreamResp where
  | transportError
  | status (code : Nat)
deriving Repr, DecidableEq

/-- Embedding of `shouldRetryUpstreamError`. -/
def shouldRetryUpstreamError (code : Nat) : Bool :=
  match code with
  | 429 | 500 | 502 | 503 | 504 | 529 => true
  | _ => false

/-- Embedding of `shouldFailoverUpstreamError`. -/
def shouldFailoverUpstreamError (code : Nat) : Bool :=
  match code with
  | 401 | 403 | 429 | 529 => true
  | _ => decide (500 ≤ code)

/-- Final classification of a `Forward` call: terminal transport failure,
failover-eligible error (`UpstreamFailoverError`), terminal mapped error
(`writeMappedClaudeError`), or success (the response-handling path). -/
inductive ClaudeForwardExit where
  | transportFailure
  | failover (code : Nat)
  | terminalError (code : Nat)
  | success (code : Nat)
deriving Repr, DecidableEq

/-- Observable run of the retry engine: number of upstream calls issued, the
status codes reported to the rate-limit collaborator
(`rateLimitService.HandleUpstreamError`) in order, and the exit. -/
structure ForwardRun where
  calls : Nat
  notified : List Nat
  exit : ClaudeForwardExit
deriving Repr, DecidableEq

/-- Unreachable fuel-exhausted placeholder for the Claude loop. -/
def forwardRunOut : ForwardRun := ⟨0, [], .transportFailure⟩

/-- Embedding of the retry loop of `Forward` (Claude protocol), including
the post-loop error handling: transport errors retry silently; retryable
statuses retry, notifying only a final 429 inside the loop; after the loop
any status ≥ 400 notifies once more and is classified as failover-eligible
or terminal. -/
def forwardClaudeLoop (up : Nat → UpstreamResp) : Nat → Nat → ForwardRun
  | attempt, fuel =>
    match up attempt with
    | .transportError =>
      if attempt < antigravityMaxRetries then
        match fuel with
        | fuel' + 1 =>
          let r := forwardClaudeLoop up (attempt + 1) fuel'
          ⟨r.calls + 1, r.notified, r.exit⟩
        | 0 => forwardRunOut
      else ⟨1, [], .transportFailure⟩
    | .status code =>
      if 400 ≤ code ∧ shouldRetryUpstreamError code then
        if attempt < antigravityMaxRetries then
          match fuel with
          | fuel' + 1 =>
            let r := forwardClaudeLoop up (attempt + 1) fuel'
            ⟨r.calls + 1, r.notified, r.exit⟩
          | 0 => forwardRunOut
        else
          ⟨1, (if code = 429 then [code] else []) ++ [code],
            if shouldFailoverUpstreamError code then .failover code
            else .terminalError code⟩
      else
        if 400 ≤ code then
          ⟨1, [code],
            if shouldFailoverUpstreamError code then .failover code
            else .terminalError code⟩
        else ⟨1, [], .success code⟩

/-- Entry point of the Claude retry engine (attempt 1, four retries left). -/
def forwardClaudeRun (up : Nat → UpstreamResp) : ForwardRun :=
  forwardClaudeLoop up 1 (antigravityMaxRetries - 1)

/-- The sub-action of a `ForwardGemini` call. -/
inductive GeminiAction where
  | generateContent
  | streamGenerateContent
  | countTokens
deriving Repr, DecidableEq

/-- Final classification of a `ForwardGemini` call;
`countTokensEstimate` is the graceful-degradation path that writes HTTP 200
with a locally estimated totalTokens and returns a successful
ForwardResult. -/
inductive GeminiForwardExit where
  | countTokensEstimate
  | transportFailure
  | failover (code : Nat)
  | terminalError (code : Nat)
  | success (code : Nat)
deriving Repr, DecidableEq

/-- Observable run of the Gemini retry engine. -/
structure GeminiForwardRun where
  calls : Nat
  notified : List Nat
  exit : GeminiForwardExit
deriving Repr, DecidableEq

/-- Unreachable fuel-exhausted placeholder for the Gemini loop. -/
def geminiRunOut : GeminiForwardRun := ⟨0, [], .transportFailure⟩

/-- Embedding of the retry loop of `ForwardGemini`, including the post-loop
error handling: every retryable 429 notifies immediately (also when the
attempt is retried); transport errors and the other retryable statuses
retry silently; `countTokens` failures degrade to the local estimate
instead of propagating; after the loop any status ≥ 400 notifies and is
classified. -/
def forwardGeminiLoop (up : Nat → UpstreamResp) (action : GeminiAction) :
    Nat → Nat → GeminiForwardRun
  | attempt, fuel =>
    match up attempt with
    | .transportError =>
      if attempt < antigravityMaxRetries then
        match fuel with
        | fuel' + 1 =>
          let r := forwardGeminiLoop up action (attempt + 1) fuel'
          ⟨r.calls + 1, r.notified, r.exit⟩
        | 0 => geminiRunOut
      else
        if action = .countTokens then ⟨1, [], .countTokensEstimate⟩
        else ⟨1, [], .transportFailure⟩
    | .status code =>
      if 400 ≤ code ∧ shouldRetryUpstreamError code then
        let inLoopNotified : List Nat := if code = 429 then [code] else []
        if attempt < antigravityMaxRetries then
          match fuel with
          | fuel' + 1 =>
            let r := forwardGeminiLoop up action (attempt + 1) fuel'
            ⟨r.calls + 1, inLoopNotified ++ r.notified, r.exit⟩
          | 0 => geminiRunOut
        else
          if action = .countTokens then ⟨1, inLoopNotified, .countTokensEstimate⟩
          else
            ⟨1, inLoopNotified ++ [code],
              if shouldFailoverUpstreamError code then .failover code
              else .terminalError code⟩
      else
        if 400 ≤ code then
          if action = .countTokens then ⟨1, [code], .countTokensEstimate⟩
          else
            ⟨1, [code],
              if shouldFailoverUpstreamError code then .failover code
              else .terminalError code⟩
        else ⟨1, [], .success code⟩

/-- Entry point of the Gemini retry engine. -/
def forwardGeminiRun (up : Nat → UpstreamResp) (action : GeminiAction) : GeminiForwardRun :=
  forwardGeminiLoop up action 1 (antigravityMaxRetries - 1)

/-- An attempt outcome that counts as an upstream failure: no response, or a
response with status ≥ 400. -/
def upstreamFailed : UpstreamResp → Prop
  | .transportError => True
  | .status code => 400 ≤ code

theorem charToUpper_idem (c : Char) : c.toUpper.toUpper = c.toUpper := by
  unfold Char.toUpper
  by_cases h : c.toNat ≥ 97 ∧ c.toNat ≤ 122
  · rw [if_pos h]
    have hv : (c.toNat - 32).isValidChar := Or.inl (by omega)
    have ht : (Char.ofNat (c.toNat - 32)).toNat = c.toNat - 32 := by
      rw [Char.ofNat, dif_pos hv]; rfl
    rw [if_neg (by rw [ht]; omega)]
  · rw [if_neg h, if_neg h]

theorem goToUpper_idem (s : String) : goToUpper (goToUpper s) = goToUpper s := by
  show String.mk (List.map Char.toUpper (List.map Char.toUpper s.data)) = _
  rw [List.map_map]
  exact congrArg String.mk (List.map_congr_left (fun c _ => charToUpper_idem c))

theorem cleanTypeValue_idem (v : JSON) : cleanTypeValue (cleanTypeValue v) = cleanTypeValue v := by
  match v with
  | .str s => simp [cleanTypeValue, goToUpper_idem]
  | .arr ts =>
    simp only [cleanTypeValue]
    cases h : ts.findSome? (fun t =>
        match t with
        | .str s => if s ≠ "null" then some s else none
        | _ => none) with
    | none => rfl
    | some s => simp [cleanTypeValue, goToUpper_idem]
  | .null => rfl
  | .bool b => rfl
  | .num n => rfl
  | .obj fields => rfl

mutual

theorem cleanSchemaValue_idem : ∀ v, cleanSchemaValue (cleanSchemaValue v) = cleanSchemaValue v
  | .obj fields => by simp [cleanSchemaValue, cleanFields_idem fields]
  | .arr elems => by simp [cleanSchemaValue, cleanArr_idem elems]
  | .null => rfl
  | .bool _ => rfl
  | .num _ => rfl
  | .str _ => rfl

theorem cleanFields_idem : ∀ l, cleanFields (cleanFields l) = cleanFields l
  | [] => rfl
  | (k, v) :: rest => by
    by_cases hk : k ∈ excludedSchemaKeys
    · simp [cleanFields, hk, cleanFields_idem rest]
    · by_cases ht : k = "type"
      · subst ht
        simp [cleanFields, hk, cleanTypeValue_idem v, cleanFields_idem rest]
      · by_cases hf : k = "format"
        · subst hf
          match v with
          | .str f =>
            by_cases ha : f = "date-time" ∨ f = "date" ∨ f = "time"
            · simp [cleanFields, hk, ha, cleanFields_idem rest]
            · simp [cleanFields, hk, ha, cleanFields_idem rest]
          | .null | .bool _ | .num _ | .arr _ | .obj _ =>
            simp [cleanFields, hk, cleanFields_idem rest]
        · by_cases hp : k = "additionalProperties"
          · subst hp
            match v with
            | .bool b => simp [cleanFields, hk, cleanFields_idem rest]
            | .null | .str _ | .num _ | .arr _ | .obj _ =>
              simp [cleanFields, hk, cleanFields_idem rest]
          · simp [cleanFields, hk, ht, hf, hp, cleanSchemaValue_idem v, cleanFields_idem rest]

theorem cleanArr_idem : ∀ l, cleanArr (cleanArr l) = cleanArr l
  | [] => rfl
  | x :: xs => by simp [cleanArr, cleanSchemaValue_idem x, cleanArr_idem xs]

end

theorem cleanFields_eq_filterMap (l : List (String × JSON)) :
    cleanFields l = l.filterMap cleanPair := by
  induction l with
  | nil => rfl
  | cons p rest ih =>
    obtain ⟨k, v⟩ := p
    by_cases hk : k ∈ excludedSchemaKeys
    · simp [cleanFields, cleanPair, hk, ih]
    · by_cases ht : k = "type"
      · subst ht; simp [cleanFields, cleanPair, hk, ih]
      · by_cases hf : k = "format"
        · subst hf
          match v with
          | .str f =>
            by_cases ha : f = "date-time" ∨ f = "date" ∨ f = "time"
            · simp [cleanFields, cleanPair, hk, ha, ih]
            · simp [cleanFields, cleanPair, hk, ha, ih]
          | .null | .bool _ | .num _ | .arr _ | .obj _ =>
            simp [cleanFields, cleanPair, hk, ih]
        · by_cases hp : k = "additionalProperties"
          · subst hp
            match v with
            | .bool b => simp [cleanFields, cleanPair, hk, ih]
            | .null | .str _ | .num _ | .arr _ | .obj _ =>
              simp [cleanFields, cleanPair, hk, ih]
          · simp [cleanFields, cleanPair, hk, ht, hf, hp, ih]

theorem cleanPair_fst : ∀ p q, cleanPair p = some q → q.1 = p.1 := by
  rintro ⟨k, v⟩ ⟨qk, qv⟩ h
  unfold cleanPair at h
  split_ifs at h <;>
    (try (cases v)) <;>
    simp_all

theorem cleanPair_required (v : JSON) :
    cleanPair ("required", v) = some ("required", cleanSchemaValue v) := rfl

theorem lookupKey_append (l₁ l₂ : List (String × JSON)) (k : String) :
    lookupKey (l₁ ++ l₂) k =
      match lookupKey l₁ k with
      | some v => some v
      | none => lookupKey l₂ k := by
  induction l₁ with
  | nil => rfl
  | cons p rest ih =>
    obtain ⟨k', v⟩ := p
    by_cases h : k' = k <;> simp [lookupKey, h, ih]

theorem lookupKey_setKey_self (l : List (String × JSON)) (k : String) (v : JSON) :
    lookupKey (setKey l k v) k = some v := by
  induction l with
  | nil => simp [setKey, lookupKey]
  | cons p rest ih =>
    obtain ⟨k', w⟩ := p
    by_cases h : k' = k <;> simp [setKey, lookupKey, h, ih]

theorem lookupKey_setKey_ne (l : List (String × JSON)) (k k' : String) (v : JSON)
    (h : k' ≠ k) : lookupKey (setKey l k v) k' = lookupKey l k' := by
  induction l with
  | nil => simp [setKey, lookupKey, Ne.symm h]
  | cons p rest ih =>
    obtain ⟨k'', w⟩ := p
    by_cases h2 : k'' = k
    · subst h2; simp [setKey, lookupKey, Ne.symm h]
    · by_cases h3 : k'' = k' <;> simp [setKey, lookupKey, h2, h3, h, ih]

theorem lookupKey_eraseKey_self (l : List (String × JSON)) (k : String) :
    lookupKey (eraseKey l k) k = none := by
  induction l with
  | nil => rfl
  | cons p rest ih =>
    obtain ⟨k', v⟩ := p
    by_cases h : k' = k <;> simp [eraseKey, lookupKey, h, ih]

theorem lookupKey_eraseKey_ne (l : List (String × JSON)) (k k' : String)
    (h : k' ≠ k) : lookupKey (eraseKey l k) k' = lookupKey l k' := by
  induction l with
  | nil => rfl
  | cons p rest ih =>
    obtain ⟨k'', v⟩ := p
    by_cases h2 : k'' = k
    · subst h2; simp [eraseKey, lookupKey, Ne.symm h, ih]
    · by_cases h3 : k'' = k' <;> simp [eraseKey, lookupKey, h2, h3, h, ih]

theorem setKey_setKey (l : List (String × JSON)) (k : String) (v w : JSON) :
    setKey (setKey l k v) k w = setKey l k w := by
  induction l with
  | nil => simp [setKey]
  | cons p rest ih =>
    obtain ⟨k', u⟩ := p
    by_cases h : k' = k <;> simp [setKey, h, ih]

theorem filterMap_eraseKey (f : String × JSON → Option (String × JSON))
    (hf : ∀ p q, f p = some q → q.1 = p.1) (l : List (String × JSON)) (k : String) :
    (eraseKey l k).filterMap f = eraseKey (l.filterMap f) k := by
  induction l with
  | nil => rfl
  | cons p rest ih =>
    cases hfp : f p with
    | none =>
      by_cases h : p.1 = k
      · simp [eraseKey, h, List.filterMap_cons, hfp, ih]
      · simp [eraseKey, h, List.filterMap_cons, hfp, ih]
    | some q =>
      have hq := hf p q hfp
      obtain ⟨qk, qv⟩ := q
      simp only at hq
      subst hq
      by_cases h : p.1 = k
      · simp [eraseKey, h, List.filterMap_cons, hfp, ih]
      · simp [eraseKey, h, List.filterMap_cons, hfp, ih]

theorem filterMap_setKey (f : String × JSON → Option (String × JSON))
    (hf : ∀ p q, f p = some q → q.1 = p.1) (k₀ : String) (g : JSON → JSON)
    (hkv : ∀ v, f (k₀, v) = some (k₀, g v)) (l : List (String × JSON)) (v : JSON) :
    (setKey l k₀ v).filterMap f = setKey (l.filterMap f) k₀ (g v) := by
  induction l with
  | nil => simp [setKey, List.filterMap, hkv v]
  | cons p rest ih =>
    by_cases h : p.1 = k₀
    · have hp : f p = some (k₀, g p.2) := by
        rw [show p = (k₀, p.2) by rw [← h]]
        exact hkv p.2
      simp [setKey, h, List.filterMap_cons, hp, hkv v]
    · cases hfp : f p with
      | none => simp [setKey, h, List.filterMap_cons, hfp, ih]
      | some q =>
        have hq := hf p q hfp
        have hqk : q.1 ≠ k₀ := by rw [hq]; exact h
        simp [setKey, h, List.filterMap_cons, hfp, hqk, ih]

theorem cleanFields_append (l₁ l₂ : List (String × JSON)) :
    cleanFields (l₁ ++ l₂) = cleanFields l₁ ++ cleanFields l₂ := by
  simp [cleanFields_eq_filterMap, List.filterMap_append]

theorem cleanFields_eraseKey (l : List (String × JSON)) (k : String) :
    cleanFields (eraseKey l k) = eraseKey (cleanFields l) k := by
  rw [cleanFields_eq_filterMap, cleanFields_eq_filterMap,
    filterMap_eraseKey cleanPair cleanPair_fst]

theorem cleanFields_setKey_required (l : List (String × JSON)) (v : JSON) :
    cleanFields (setKey l "required" v) =
      setKey (cleanFields l) "required" (cleanSchemaValue v) := by
  rw [cleanFields_eq_filterMap, cleanFields_eq_filterMap,
    filterMap_setKey cleanPair cleanPair_fst "required" cleanSchemaValue cleanPair_required]

theorem cleanArr_eq_of_fix (l : List JSON) (h : ∀ x ∈ l, cleanSchemaValue x = x) :
    cleanArr l = l := by
  induction l with
  | nil => rfl
  | cons x xs ih =>
    rw [cleanArr, h x (by simp), ih (fun y hy => h y (by simp [hy]))]

theorem lookupKey_append_single_ne (l : List (String × JSON)) (k k' : String) (v : JSON)
    (h : k ≠ k') : lookupKey (l ++ [(k', v)]) k = lookupKey l k := by
  rw [lookupKey_append]
  cases lookupKey l k <;> simp [lookupKey, Ne.symm h]

theorem lookupKey_ensureType_type (l : List (String × JSON)) :
    (lookupKey (ensureType l) "type").isSome := by
  unfold ensureType
  cases hx : lookupKey l "type" with
  | none => simp [hx, lookupKey_append, lookupKey]
  | some v => simp [hx]

theorem lookupKey_ensureProps_props (l : List (String × JSON)) :
    (lookupKey (ensureProps l) "properties").isSome := by
  unfold ensureProps
  cases hx : lookupKey l "properties" with
  | none => simp [hx, lookupKey_append, lookupKey]
  | some v => simp [hx]

theorem lookupKey_ensureProps_ne (l : List (String × JSON)) (k : String)
    (h : k ≠ "properties") : lookupKey (ensureProps l) k = lookupKey l k := by
  unfold ensureProps
  split_ifs with hx
  · exact lookupKey_append_single_ne l k "properties" (.obj []) h
  · rfl

theorem lookupKey_ensureType_ne (l : List (String × JSON)) (k : String)
    (h : k ≠ "type") : lookupKey (ensureType l) k = lookupKey l k := by
  unfold ensureType
  split_ifs with hx
  · exact lookupKey_append_single_ne l k "type" (.str "OBJECT") h
  · rfl

theorem ensureType_eq_self (l : List (String × JSON))
    (h : (lookupKey l "type").isSome) : ensureType l = l := by
  unfold ensureType
  obtain ⟨v, hv⟩ := Option.isSome_iff_exists.mp h
  simp [hv]

theorem ensureProps_eq_self (l : List (String × JSON))
    (h : (lookupKey l "properties").isSome) : ensureProps l = l := by
  unfold ensureProps
  obtain ⟨v, hv⟩ := Option.isSome_iff_exists.mp h
  simp [hv]

theorem cleanFields_ensureType (l : List (String × JSON)) (h : cleanFields l = l) :
    cleanFields (ensureType l) = ensureType l := by
  unfold ensureType
  split_ifs with hx
  · rw [cleanFields_append, h]
    rfl
  · exact h

theorem cleanFields_ensureProps (l : List (String × JSON)) (h : cleanFields l = l) :
    cleanFields (ensureProps l) = ensureProps l := by
  unfold ensureProps
  split_ifs with hx
  · rw [cleanFields_append, h]
    rfl
  · exact h

theorem lookupKey_fixRequired_ne (l : List (String × JSON)) (k : String)
    (h : k ≠ "required") : lookupKey (fixRequired l) k = lookupKey l k := by
  unfold fixRequired
  split
  · split_ifs
    · rw [lookupKey_eraseKey_ne _ _ _ h]
    · rw [lookupKey_setKey_ne _ _ _ _ h]
  · rfl

theorem validRequiredOf_fix (rs : List JSON) (ps : List (String × JSON)) :
    validRequiredOf (validRequiredOf rs ps) ps = validRequiredOf rs ps := by
  unfold validRequiredOf
  apply List.filter_eq_self.mpr
  intro a ha
  exact (List.mem_filter.mp ha).2

theorem cleanSchemaValue_validRequired (rs : List JSON) (ps : List (String × JSON)) :
    cleanSchemaValue (.arr (validRequiredOf rs ps)) = .arr (validRequiredOf rs ps) := by
  rw [cleanSchemaValue]
  rw [cleanArr_eq_of_fix]
  intro x hx
  have hmem := (List.mem_filter.mp hx).2
  match x with
  | .str s => rfl
  | .null | .bool _ | .num _ | .arr _ | .obj _ => simp at hmem

theorem cleanFields_fixRequired (l : List (String × JSON)) (h : cleanFields l = l) :
    cleanFields (fixRequired l) = fixRequired l := by
  unfold fixRequired
  split
  case _ req props heq1 heq2 =>
    split_ifs with hv
    · rw [cleanFields_eraseKey, h]
    · rw [cleanFields_setKey_required, h, cleanSchemaValue_validRequired]
  case _ => exact h

theorem fixRequired_idem (l : List (String × JSON)) :
    fixRequired (fixRequired l) = fixRequired l := by
  have hfall : ∀ m : List (String × JSON),
      (∀ rs ps, lookupKey m "required" = some (.arr rs) →
        lookupKey m "properties" = some (.obj ps) → False) →
      fixRequired m = m := by
    intro m hm
    unfold fixRequired
    split
    case _ rs ps heq1 heq2 => exact (hm rs ps heq1 heq2).elim
    case _ => rfl
  rcases hr : lookupKey l "required" with _ | v
  · have h1 : fixRequired l = l := hfall l (by intro rs ps h1 _; rw [hr] at h1; cases h1)
    rw [h1, h1]
  · match v with
    | .arr rs =>
      rcases hp : lookupKey l "properties" with _ | w
      · have h1 : fixRequired l = l := hfall l (by intro rs' ps h1' h2'; rw [hp] at h2'; cases h2')
        rw [h1, h1]
      · match w with
        | .obj ps =>
          have h1 : fixRequired l =
              if (validRequiredOf rs ps).isEmpty then eraseKey l "required"
              else setKey l "required" (.arr (validRequiredOf rs ps)) := by
            unfold fixRequired
            rw [hr, hp]
          by_cases hv : (validRequiredOf rs ps).isEmpty
          · rw [h1, if_pos hv]
            apply hfall
            intro rs' ps' h1' _
            rw [lookupKey_eraseKey_self] at h1'
            cases h1'
          · rw [h1, if_neg hv]
            have e1 : lookupKey (setKey l "required" (.arr (validRequiredOf rs ps)))
                "required" = some (.arr (validRequiredOf rs ps)) :=
              lookupKey_setKey_self _ _ _
            have e2 : lookupKey (setKey l "required" (.arr (validRequiredOf rs ps)))
                "properties" = some (.obj ps) := by
              rw [lookupKey_setKey_ne _ _ _ _ (by decide)]
              exact hp
            unfold fixRequired
            simp only [e1, e2, validRequiredOf_fix]
            rw [if_neg hv, setKey_setKey]
        | .null | .bool _ | .num _ | .str _ | .arr _ =>
          have h1 : fixRequired l = l := hfall l (by
            intro rs' ps h1' h2'
            rw [hp] at h2'
            cases h2')
          rw [h1, h1]
    | .null | .bool _ | .num _ | .str _ | .obj _ =>
      have h1 : fixRequired l = l := hfall l (by
        intro rs' ps h1' _
        rw [hr] at h1'
        cases h1')
      rw [h1, h1]

/-- C8. The Schema Sanitizer is idempotent: cleaning an already cleaned
schema map is the identity, Clean(Clean(s)) = Clean(s). -/
theorem cleanJSONSchema_idempotent (s : List (String × JSON)) :
    cleanJSONSchema (cleanJSONSchema s) = cleanJSONSchema s := by
  show fixRequired (ensureDefaults (cleanFields (cleanJSONSchema s))) = cleanJSONSchema s
  have hfix : cleanFields (cleanJSONSchema s) = cleanJSONSchema s := by
    show cleanFields (fixRequired (ensureDefaults (cleanFields s))) = _
    exact cleanFields_fixRequired _
      (cleanFields_ensureProps _ (cleanFields_ensureType _ (cleanFields_idem s)))
  have hType : (lookupKey (cleanJSONSchema s) "type").isSome := by
    show (lookupKey (fixRequired (ensureDefaults (cleanFields s))) "type").isSome
    rw [lookupKey_fixRequired_ne _ _ (by decide)]
    show (lookupKey (ensureProps (ensureType (cleanFields s))) "type").isSome
    rw [lookupKey_ensureProps_ne _ _ (by decide)]
    exact lookupKey_ensureType_type _
  have hProps : (lookupKey (cleanJSONSchema s) "properties").isSome := by
    show (lookupKey (fixRequired (ensureDefaults (cleanFields s))) "properties").isSome
    rw [lookupKey_fixRequired_ne _ _ (by decide)]
    exact lookupKey_ensureProps_props _
  rw [hfix]
  show fixRequired (ensureProps (ensureType (cleanJSONSchema s))) = cleanJSONSchema s
  rw [ensureType_eq_self _ hType, ensureProps_eq_self _ hProps]
  show fixRequired (fixRequired (ensureDefaults (cleanFields s))) = _
  rw [fixRequired_idem]
  rfl

/-- C3 (amended). At the top level the sanitizer's output never pairs a
required array with a properties map unless every required entry is a string
naming an existing property, and a required array that filtered to empty is
omitted rather than emitted. -/
theorem required_filtered_at_top_level :
    ∀ (fields : List (String × JSON)) (rs : List JSON) (ps : List (String × JSON)),
      lookupKey (cleanJSONSchema fields) "required" = some (.arr rs) →
      lookupKey (cleanJSONSchema fields) "properties" = some (.obj ps) →
      rs ≠ [] ∧ ∀ r ∈ rs, ∃ name, r = .str name ∧ (lookupKey ps name).isSome := by
  intro fields rs ps h1 h2
  have h1' : lookupKey (fixRequired (ensureDefaults (cleanFields fields))) "required"
      = some (.arr rs) := h1
  have h2' : lookupKey (fixRequired (ensureDefaults (cleanFields fields))) "properties"
      = some (.obj ps) := h2
  revert h1' h2'
  unfold fixRequired
  split
  case _ req props heq1 heq2 =>
    split_ifs with hv
    · intro h1' _
      rw [lookupKey_eraseKey_self] at h1'
      cases h1'
    · intro h1' h2'
      rw [lookupKey_setKey_self] at h1'
      rw [lookupKey_setKey_ne _ _ _ _ (by decide)] at h2'
      rw [heq2] at h2'
      injection h1' with h1''
      injection h2' with h2''
      injection h1'' with hrs
      injection h2'' with hps
      subst hrs
      subst hps
      constructor
      · intro hnil
        rw [hnil] at hv
        exact hv rfl
      · intro r hr
        have hmem := List.mem_filter.mp hr
        match r with
        | .str name =>
          refine ⟨name, rfl, ?_⟩
          simpa using hmem.2
        | .null | .bool _ | .num _ | .arr _ | .obj _ => simp at hmem
  case _ hno =>
    intro h1' h2'
    exact (hno _ _ h1' h2').elim

/-- C3 (counterexample). The claim fails below the top level: cleaning a
schema whose nested property object carries required = ["x"] with empty
sibling properties leaves that nested required array untouched, so the
output does contain a required entry naming an absent property. -/
theorem nested_required_not_filtered :
    cleanJSONSchema
      [("type", .str "object"),
       ("properties", .obj [("a", .obj
          [("type", .str "object"), ("properties", .obj []),
           ("required", .arr [.str "x"])])])] =
      [("type", .str "OBJECT"),
       ("properties", .obj [("a", .obj
          [("type", .str "OBJECT"), ("properties", .obj []),
           ("required", .arr [.str "x"])])])] ∧
    requiredHonored (.obj (cleanJSONSchema
      [("type", .str "object"),
       ("properties", .obj [("a", .obj
          [("type", .str "object"), ("properties", .obj []),
           ("required", .arr [.str "x"])])])])) = false ∧
    ¬ (∀ s : List (String × JSON), requiredHonored (.obj (cleanJSONSchema s)) = true) :=
  ⟨rfl, rfl,
   fun h => Bool.false_ne_true (h
     [("type", .str "object"),
      ("properties", .obj [("a", .obj
         [("type", .str "object"), ("properties", .obj []),
          ("required", .arr [.str "x"])])])])⟩

/-- C3 (witness). Concrete instance of the top-level guarantee: required
["a","b"] against properties containing only "a" filters to the non-empty
list ["a"], every member of which names an existing property. -/
theorem required_filtered_at_top_level_witness :
    ([JSON.str "a"] ≠ ([] : List JSON)) ∧
      ∀ r ∈ [JSON.str "a"], ∃ name, r = .str name ∧
        (lookupKey [("a", JSON.null)] name).isSome :=
  required_filtered_at_top_level
    [("properties", .obj [("a", .null)]), ("required", .arr [.str "a", .str "b"])]
    [.str "a"] [("a", .null)] rfl rfl

/-- C1 (amended). Per-event usage merge of the Claude streaming
accumulator: a message_delta overwrites output tokens unconditionally (so a
zero-output delta does erase) and fills input/cache counters only when still
zero; a message_start overwrites input/cache counters unconditionally and
leaves output alone; the spec's concrete sequence [start(input=10),
delta(output=5), delta(output=12)] still yields input=10, output=12. -/
theorem usage_merge_per_event :
    (∀ (u d : ClaudeUsage),
      (parseClaudeSSEUsage (.messageDelta d) u).outputTokens = d.outputTokens) ∧
    (∀ (u d : ClaudeUsage), u.inputTokens ≠ 0 →
      (parseClaudeSSEUsage (.messageDelta d) u).inputTokens = u.inputTokens) ∧
    (∀ (u d : ClaudeUsage), u.cacheCreationInputTokens ≠ 0 →
      (parseClaudeSSEUsage (.messageDelta d) u).cacheCreationInputTokens
        = u.cacheCreationInputTokens) ∧
    (∀ (u d : ClaudeUsage), u.cacheReadInputTokens ≠ 0 →
      (parseClaudeSSEUsage (.messageDelta d) u).cacheReadInputTokens
        = u.cacheReadInputTokens) ∧
    (∀ (u m : ClaudeUsage), parseClaudeSSEUsage (.messageStart m) u =
      { inputTokens := m.inputTokens
        outputTokens := u.outputTokens
        cacheCreationInputTokens := m.cacheCreationInputTokens
        cacheReadInputTokens := m.cacheReadInputTokens }) ∧
    accumClaudeSSEUsage
      [.messageStart { inputTokens := 10 }, .messageDelta { outputTokens := 5 },
       .messageDelta { outputTokens := 12 }] {} =
      { inputTokens := 10, outputTokens := 12 } := by
  refine ⟨?_, ?_, ?_, ?_, ?_, rfl⟩
  · intro u d
    simp only [parseClaudeSSEUsage]
    split_ifs <;> rfl
  · intro u d h
    simp only [parseClaudeSSEUsage]
    split_ifs <;> simp_all
  · intro u d h
    simp only [parseClaudeSSEUsage]
    split_ifs <;> simp_all
  · intro u d h
    simp only [parseClaudeSSEUsage]
    split_ifs <;> simp_all
  · intro u m
    rfl

/-- C1 (witness). The hypothesis-bearing parts of the per-event merge
theorem at concrete snapshots: a delta does not overwrite already non-zero
input/cache counters. -/
theorem usage_merge_per_event_witness :
    (parseClaudeSSEUsage (.messageDelta { inputTokens := 3 })
      { inputTokens := 7 }).inputTokens = 7 ∧
    (parseClaudeSSEUsage (.messageDelta { cacheCreationInputTokens := 3 })
      { cacheCreationInputTokens := 7 }).cacheCreationInputTokens = 7 ∧
    (parseClaudeSSEUsage (.messageDelta { cacheReadInputTokens := 3 })
      { cacheReadInputTokens := 7 }).cacheReadInputTokens = 7 :=
  ⟨usage_merge_per_event.2.1 _ _ (by decide),
   usage_merge_per_event.2.2.1 _ _ (by decide),
   usage_merge_per_event.2.2.2.1 _ _ (by decide)⟩

/-- C1 (counterexample). A later message_delta carrying output = 0 erases a
previously observed non-zero output: after [start(input=10),
delta(output=5)] the snapshot holds output=5, but appending an empty delta
resets output to 0. -/
theorem usage_zero_delta_erases_output :
    accumClaudeSSEUsage
      [.messageStart { inputTokens := 10 }, .messageDelta { outputTokens := 5 }] {} =
      { inputTokens := 10, outputTokens := 5 } ∧
    accumClaudeSSEUsage
      [.messageStart { inputTokens := 10 }, .messageDelta { outputTokens := 5 },
       .messageDelta {}] {} =
      { inputTokens := 10, outputTokens := 0 } ∧
    ¬ (∀ (u : ClaudeUsage) (ev : SSEUsageEvent),
        u.outputTokens ≠ 0 → (parseClaudeSSEUsage ev u).outputTokens ≠ 0) :=
  ⟨rfl, rfl,
   fun h =>
     (h { inputTokens := 10, outputTokens := 5 } (.messageDelta {}) (by decide)) rfl⟩

/-- C10. Every content entry emitted by buildContents has a non-empty parts
list: a message whose blocks all reduce to nothing is omitted entirely. -/
theorem contents_parts_nonempty :
    ∀ (messages : List ClaudeMessage) (m : List (String × String))
      (isThinkingEnabled allowDummyThought : Bool),
      ∀ c ∈ (buildContents messages m isThinkingEnabled allowDummyThought).contents,
        c.parts ≠ [] := by
  intro messages
  induction messages with
  | nil =>
    intro m t d c hc
    simp [buildContents] at hc
  | cons msg rest ih =>
    intro m t d c hc
    simp only [buildContents] at hc
    repeat' split at hc
    all_goals
      first
        | exact ih _ _ _ c hc
        | (rcases List.mem_cons.mp hc with rfl | hc'
           · simp_all [List.isEmpty_iff]
           · exact ih _ _ _ c hc')

/-- C10 (witness). Concrete instance: the single emitted entry for a
one-message conversation has non-empty parts. -/
theorem contents_parts_nonempty_witness :
    (GeminiContent.mk "user" [{ text := "hi" }]).parts ≠ [] :=
  contents_parts_nonempty [⟨"user", .str "hi"⟩] [] false false
    ⟨"user", [{ text := "hi" }]⟩ (List.Mem.head _)

theorem buildPartsBlock_stripped_mono (d : Bool) (st : PartsState) (b : ContentBlock)
    (h : st.strippedThinking = true) : (buildPartsBlock d st b).strippedThinking = true := by
  unfold buildPartsBlock
  split_ifs <;> (repeat' split) <;> simp_all

theorem foldl_stripped_mono (d : Bool) (bs : List ContentBlock) (st : PartsState)
    (h : st.strippedThinking = true) :
    (bs.foldl (buildPartsBlock d) st).strippedThinking = true := by
  induction bs generalizing st with
  | nil => exact h
  | cons b rest ih => exact ih _ (buildPartsBlock_stripped_mono d st b h)

theorem buildPartsBlock_strips (st : PartsState) (b : ContentBlock)
    (ht : b.type = "thinking") (hs : b.signature = "") :
    (buildPartsBlock false st b).strippedThinking = true := by
  unfold buildPartsBlock
  simp only [ht, hs]
  split_ifs <;> simp_all

theorem foldl_stripped_of_mem (bs : List ContentBlock) (b : ContentBlock)
    (hb : b ∈ bs) (ht : b.type = "thinking") (hs : b.signature = "") :
    ∀ st : PartsState, (bs.foldl (buildPartsBlock false) st).strippedThinking = true := by
  induction bs with
  | nil => cases hb
  | cons x rest ih =>
    intro st
    rcases List.mem_cons.mp hb with rfl | hmem
    · exact foldl_stripped_mono false rest _ (buildPartsBlock_strips st b ht hs)
    · exact ih hmem _

theorem buildParts_stripped (bs : List ContentBlock) (m : List (String × String))
    (b : ContentBlock) (hb : b ∈ bs) (ht : b.type = "thinking") (hs : b.signature = "") :
    (buildParts (.blocks bs) m false).strippedThinking = true :=
  foldl_stripped_of_mem bs b hb ht hs _

theorem buildContents_stripped (messages : List ClaudeMessage) (t : Bool)
    (msg : ClaudeMessage) (hmsg : msg ∈ messages) (bs : List ContentBlock)
    (hc : msg.content = .blocks bs) (b : ContentBlock) (hb : b ∈ bs)
    (ht : b.type = "thinking") (hs : b.signature = "") :
    ∀ m : List (String × String),
      (buildContents messages m t false).strippedThinking = true := by
  induction messages with
  | nil => cases hmsg
  | cons x rest ih =>
    intro m
    rcases List.mem_cons.mp hmsg with rfl | hmem
    · simp only [buildContents]
      rw [hc]
      simp [buildParts_stripped bs m b hb ht hs]
    · simp only [buildContents]
      simp [ih hmem _]

/-- C5 (amended). Under the genuine-signature policy, an unsigned thinking
block is never emitted as a thought part: its text becomes an ordinary text
part when non-blank and is dropped entirely when blank, the downgrade flag
is set either way, and with such a block anywhere in the request the
resulting request carries no thinking configuration. -/
theorem unsigned_thinking_downgraded :
    (∀ (st : PartsState) (b : ContentBlock), b.type = "thinking" → b.signature = "" →
      (goTrim b.thinking ≠ "" →
        buildPartsBlock false st b =
          { st with
            parts := st.parts ++ [{ text := b.thinking }]
            strippedThinking := true }) ∧
      (goTrim b.thinking = "" →
        buildPartsBlock false st b = { st with strippedThinking := true })) ∧
    (∀ (req : ClaudeRequest) (mapped : String) (bs : List ContentBlock)
        (msg : ClaudeMessage),
      ¬ goStartsWith mapped "gemini-" = true →
      msg ∈ req.messages → msg.content = .blocks bs →
      (∃ b ∈ bs, b.type = "thinking" ∧ b.signature = "") →
      (transformClaudeToGemini req mapped).generationConfig =
        some (buildGenerationConfig { req with thinking := none }) ∧
      (buildGenerationConfig { req with thinking := none }).thinkingConfig = none) := by
  constructor
  · intro st b ht hs
    constructor
    · intro htrim
      unfold buildPartsBlock
      simp [ht, hs, htrim]
    · intro htrim
      unfold buildPartsBlock
      simp [ht, hs, htrim]
  · intro req mapped bs msg hpre hmsg hcontent hex
    obtain ⟨b, hb, ht, hs⟩ := hex
    have hfalse : goStartsWith mapped "gemini-" = false := by
      cases h : goStartsWith mapped "gemini-"
      · rfl
      · exact (hpre h).elim
    have hstr : (buildContents req.messages [] (thinkingRequested req)
        (goStartsWith mapped "gemini-")).strippedThinking = true := by
      rw [hfalse]
      exact buildContents_stripped req.messages (thinkingRequested req) msg hmsg bs
        hcontent b hb ht hs []
    constructor
    · unfold transformClaudeToGemini
      simp only [hstr, if_true]
    · rfl

/-- C5 (counterexample). A thinking block with empty signature and blank
text is dropped entirely under the genuine-signature policy: no part at all
is emitted, so its text is not emitted as an ordinary text part. -/
theorem blank_unsigned_thinking_dropped :
    buildParts (.blocks [{ type := "thinking", thinking := " ", signature := "" }]) [] false =
      ⟨[], true, []⟩ ∧
    ¬ (∀ (st : PartsState) (b : ContentBlock), b.type = "thinking" → b.signature = "" →
        ∃ p ∈ (buildPartsBlock false st b).parts,
          p.text = b.thinking ∧ p.thought = false) := by
  refine ⟨rfl, fun h => ?_⟩
  obtain ⟨p, hp, _⟩ :=
    h ⟨[], false, []⟩ { type := "thinking", thinking := " ", signature := "" } rfl rfl
  exact List.not_mem_nil p hp

/-- C5 (witness). The downgrade theorem instantiated: a non-blank unsigned
thinking block becomes a plain text part, and a request containing one gets
no thinking configuration. -/
theorem unsigned_thinking_downgraded_witness :
    buildPartsBlock false ⟨[], false, []⟩
        { type := "thinking", thinking := "deep", signature := "" } =
      ⟨[{ text := "deep" }], true, []⟩ ∧
    ((transformClaudeToGemini
        { model := "claude-opus-4"
          messages := [⟨"assistant", .blocks
            [{ type := "thinking", thinking := "deep", signature := "" }]⟩]
          thinking := some ⟨"enabled", 1000⟩ }
        "claude-sonnet-4-5").generationConfig =
      some (buildGenerationConfig
        { model := "claude-opus-4"
          messages := [⟨"assistant", .blocks
            [{ type := "thinking", thinking := "deep", signature := "" }]⟩]
          thinking := none }) ∧
      (buildGenerationConfig
        { model := "claude-opus-4"
          messages := [⟨"assistant", .blocks
            [{ type := "thinking", thinking := "deep", signature := "" }]⟩]
          thinking := none }).thinkingConfig = none) := by
  constructor
  · exact (unsigned_thinking_downgraded.1 ⟨[], false, []⟩
      { type := "thinking", thinking := "deep", signature := "" } rfl rfl).1 (by decide)
  · exact unsigned_thinking_downgraded.2
      { model := "claude-opus-4"
        messages := [⟨"assistant", .blocks
          [{ type := "thinking", thinking := "deep", signature := "" }]⟩]
        thinking := some ⟨"enabled", 1000⟩ }
      "claude-sonnet-4-5"
      [{ type := "thinking", thinking := "deep", signature := "" }]
      ⟨"assistant", .blocks [{ type := "thinking", thinking := "deep", signature := "" }]⟩
      (by decide) (List.Mem.head _) rfl
      ⟨{ type := "thinking", thinking := "deep", signature := "" },
        List.Mem.head _, rfl, rfl⟩

/-- C4 (amended). Under the synthetic-signature policy with thinking
requested, when the final message is an assistant message whose blocks build
a non-empty parts list with no thought part of its own, the transform emits
the conversation with every non-final message transformed exactly as if no
prepend step existed, and the final message receives exactly one leading
synthetic thought part carrying the fixed dummy signature. -/
theorem synthetic_thought_only_on_final_assistant :
    ∀ (ms : List ClaudeMessage) (last : ClaudeMessage) (m : List (String × String)),
      last.role = "assistant" →
      ¬ ((buildParts last.content (buildContentsNoDummy ms m true).toolIDToName
          true).parts.any (fun p => p.thought)) = true →
      ¬ ((buildParts last.content (buildContentsNoDummy ms m true).toolIDToName
          true).parts.isEmpty) = true →
      (buildContents (ms ++ [last]) m true true).contents =
        (buildContentsNoDummy ms m true).contents ++
          [⟨"model", dummyThinkingPart ::
            (buildParts last.content (buildContentsNoDummy ms m true).toolIDToName
              true).parts⟩] := by
  intro ms
  induction ms with
  | nil =>
    intro last m hrole hth hne
    simp only [buildContentsNoDummy] at hth hne ⊢
    simp only [List.nil_append, buildContents, hrole]
    simp [hth, hne, List.isEmpty_iff]
  | cons msg ms' ih =>
    intro last m hrole hth hne
    have hth' := hth
    have hne' := hne
    simp only [buildContentsNoDummy] at hth' hne'
    simp only [List.cons_append, buildContents, buildContentsNoDummy, List.append_eq]
    rw [ih last (buildParts msg.content m true).toolIDToName hrole hth' hne']
    have hrest : (ms' ++ [last]).isEmpty = false := by
      simp [List.isEmpty_iff]
    by_cases hE : (buildParts msg.content m true).parts.isEmpty <;>
      simp [hE, hrest]

/-- C4 (counterexample). A final assistant message with no thought part but
whose content reduces to zero parts (the "(no content)" sentinel) receives
no synthetic thought part at all: the message is dropped from contents, so
the claim's unconditional "exactly one leading synthetic thought part"
fails. -/
theorem empty_final_assistant_gets_no_thought :
    (buildContents [⟨"user", .str "hi"⟩, ⟨"assistant", .str "(no content)"⟩]
      [] true true).contents = [⟨"user", [{ text := "hi" }]⟩] ∧
    ((buildContents [⟨"user", .str "hi"⟩, ⟨"assistant", .str "(no content)"⟩]
      [] true true).contents.all
        (fun c => c.parts.all (fun p => !p.thought))) = true ∧
    ¬ (∀ (ms : List ClaudeMessage) (last : ClaudeMessage) (m : List (String × String)),
        last.role = "assistant" →
        ¬ ((buildParts last.content (buildContentsNoDummy ms m true).toolIDToName
            true).parts.any (fun p => p.thought)) = true →
        ∃ c ∈ (buildContents (ms ++ [last]) m true true).contents,
          dummyThinkingPart ∈ c.parts) := by
  refine ⟨rfl, rfl, fun h => ?_⟩
  obtain ⟨c, hc, hp⟩ :=
    h [⟨"user", .str "hi"⟩] ⟨"assistant", .str "(no content)"⟩ [] rfl (by decide)
  rw [show (buildContents ([⟨"user", .str "hi"⟩] ++ [⟨"assistant", .str "(no content)"⟩])
      [] true true).contents = [⟨"user", [{ text := "hi" }]⟩] from rfl] at hc
  rw [List.mem_singleton.mp hc] at hp
  have hb := congrArg GeminiPart.thought (List.mem_singleton.mp hp)
  simp [dummyThinkingPart] at hb

/-- C4 (witness). The prepend theorem instantiated on a two-message
conversation: the user message is transformed without a prepend and the
final assistant message gets exactly one leading synthetic thought part. -/
theorem synthetic_thought_only_on_final_assistant_witness :
    (buildContents [⟨"user", .str "hi"⟩, ⟨"assistant", .str "draft"⟩]
      [] true true).contents =
      (buildContentsNoDummy [⟨"user", .str "hi"⟩] [] true).contents ++
        [⟨"model", dummyThinkingPart ::
          (buildParts (.str "draft")
            (buildContentsNoDummy [⟨"user", .str "hi"⟩] [] true).toolIDToName
            true).parts⟩] :=
  synthetic_thought_only_on_final_assistant
    [⟨"user", .str "hi"⟩] ⟨"assistant", .str "draft"⟩ [] rfl
    (by decide) (by decide)

/-- C6 (amended). With thinking enabled and a positive budget the emitted
thinking config has includeThoughts = true and carries the requested budget,
except that the budget is clamped to 24576 exactly when the original
requested model string contains "gemini-2.5-flash" (not the resolved
backend model) and the budget exceeds 24576; and absent a thinking
downgrade the transform emits the generation config of the request
unchanged. -/
theorem thinking_budget_clamp :
    (∀ (req : ClaudeRequest) (mapped : String),
      (buildContents req.messages [] (thinkingRequested req)
        (goStartsWith mapped "gemini-")).strippedThinking = false →
      (transformClaudeToGemini req mapped).generationConfig =
        some (buildGenerationConfig req)) ∧
    (∀ (req : ClaudeRequest) (th : ClaudeThinking), req.thinking = some th →
      th.type = "enabled" → th.budgetTokens > 0 →
      (buildGenerationConfig req).thinkingConfig =
        some { includeThoughts := true
               thinkingBudget :=
                 if goContains req.model "gemini-2.5-flash" ∧ th.budgetTokens > 24576
                 then 24576 else th.budgetTokens }) := by
  constructor
  · intro req mapped hstr
    unfold transformClaudeToGemini
    simp only [hstr, Bool.false_eq_true, if_false]
  · intro req th hth htype hbudget
    simp only [buildGenerationConfig, hth, htype, hbudget, if_true]

/-- C6 (counterexample). The clamp is keyed on the requested model string,
not the resolved backend model: requesting "foo-gemini-2.5-flash" resolves
to "claude-sonnet-4-5" (which is not a gemini-2.5-flash variant), yet a
budget of 30000 is still clamped to 24576 instead of being passed through. -/
theorem clamp_keys_on_requested_model :
    getMappedModel ⟨[]⟩ "foo-gemini-2.5-flash" = "claude-sonnet-4-5" ∧
    goContains "claude-sonnet-4-5" "gemini-2.5-flash" = false ∧
    (transformClaudeToGemini
      { model := "foo-gemini-2.5-flash"
        messages := []
        thinking := some ⟨"enabled", 30000⟩ }
      (getMappedModel ⟨[]⟩ "foo-gemini-2.5-flash")).generationConfig =
      some { maxOutputTokens := 64000
             stopSequences := DefaultStopSequences
             thinkingConfig := some { includeThoughts := true, thinkingBudget := 24576 } } ∧
    ¬ (∀ (req : ClaudeRequest) (account : Account) (th : ClaudeThinking),
        req.thinking = some th → th.type = "enabled" → th.budgetTokens > 0 →
        ¬ goContains (getMappedModel account req.model) "gemini-2.5-flash" = true →
        (buildGenerationConfig req).thinkingConfig =
          some { includeThoughts := true, thinkingBudget := th.budgetTokens }) := by
  refine ⟨rfl, rfl, rfl, fun h => ?_⟩
  have hinst := h
    { model := "foo-gemini-2.5-flash"
      messages := []
      thinking := some ⟨"enabled", 30000⟩ }
    ⟨[]⟩ ⟨"enabled", 30000⟩ rfl rfl (by decide) (by decide)
  exact absurd hinst (by decide)

/-- C6 (witness). The clamp theorem instantiated: a gemini-2.5-flash request
above the cap is clamped to 24576; a small budget passes through. -/
theorem thinking_budget_clamp_witness :
    (transformClaudeToGemini
      { model := "gemini-2.5-flash", messages := [], thinking := some ⟨"enabled", 30000⟩ }
      "gemini-2.5-flash").generationConfig =
      some (buildGenerationConfig
        { model := "gemini-2.5-flash", messages := [],
          thinking := some ⟨"enabled", 30000⟩ }) ∧
    (buildGenerationConfig
      { model := "gemini-2.5-flash", messages := [],
        thinking := some ⟨"enabled", 30000⟩ }).thinkingConfig =
      some { includeThoughts := true, thinkingBudget := 24576 } ∧
    (buildGenerationConfig
      { model := "claude-opus-4", messages := [],
        thinking := some ⟨"enabled", 30000⟩ }).thinkingConfig =
      some { includeThoughts := true, thinkingBudget := 30000 } := by
  refine ⟨?_, ?_, ?_⟩
  · exact thinking_budget_clamp.1
      { model := "gemini-2.5-flash", messages := [], thinking := some ⟨"enabled", 30000⟩ }
      "gemini-2.5-flash" rfl
  · exact thinking_budget_clamp.2
      { model := "gemini-2.5-flash", messages := [], thinking := some ⟨"enabled", 30000⟩ }
      ⟨"enabled", 30000⟩ rfl rfl (by decide)
  · exact thinking_budget_clamp.2
      { model := "claude-opus-4", messages := [], thinking := some ⟨"enabled", 30000⟩ }
      ⟨"enabled", 30000⟩ rfl rfl (by decide)

theorem claudeLoop_step_transport (up : Nat → UpstreamResp) (attempt fuel : Nat)
    (hc : up attempt = .transportError) (hlt : attempt < antigravityMaxRetries) :
    forwardClaudeLoop up attempt (fuel + 1) =
      ⟨(forwardClaudeLoop up (attempt + 1) fuel).calls + 1,
       (forwardClaudeLoop up (attempt + 1) fuel).notified,
       (forwardClaudeLoop up (attempt + 1) fuel).exit⟩ := by
  simp only [forwardClaudeLoop, hc, hlt, if_true]

theorem claudeLoop_step_retry (up : Nat → UpstreamResp) (attempt fuel code : Nat)
    (hc : up attempt = .status code) (h4 : 400 ≤ code)
    (hr : shouldRetryUpstreamError code = true) (hlt : attempt < antigravityMaxRetries) :
    forwardClaudeLoop up attempt (fuel + 1) =
      ⟨(forwardClaudeLoop up (attempt + 1) fuel).calls + 1,
       (forwardClaudeLoop up (attempt + 1) fuel).notified,
       (forwardClaudeLoop up (attempt + 1) fuel).exit⟩ := by
  simp only [forwardClaudeLoop, hc, h4, hr, and_self, if_true, hlt]

theorem claudeLoop_exhaust (up : Nat → UpstreamResp) (attempt fuel code : Nat)
    (hc : up attempt = .status code) (h4 : 400 ≤ code)
    (hr : shouldRetryUpstreamError code = true) (hge : ¬ attempt < antigravityMaxRetries) :
    forwardClaudeLoop up attempt fuel =
      ⟨1, (if code = 429 then [code] else []) ++ [code],
        if shouldFailoverUpstreamError code then .failover code
        else .terminalError code⟩ := by
  cases fuel <;>
    simp only [forwardClaudeLoop, hc, h4, hr, and_self, if_true, hge, if_false]

theorem claudeLoop_success (up : Nat → UpstreamResp) (attempt fuel code : Nat)
    (hc : up attempt = .status code) (h4 : ¬ 400 ≤ code) :
    forwardClaudeLoop up attempt fuel = ⟨1, [], .success code⟩ := by
  have hr : ¬ (400 ≤ code ∧ shouldRetryUpstreamError code = true) := fun h => h4 h.1
  cases fuel <;> simp only [forwardClaudeLoop, hc, hr, if_false, h4, false_and]

/-- C2. Retry loop of Forward with max attempts N = 5: a stub upstream
returning 503 on attempts 1..4 and 200 on attempt 5 makes Forward succeed
after exactly 5 upstream calls; 503 on all 5 attempts makes Forward issue
exactly 5 calls and exit with the failover-eligible classification
(UpstreamFailoverError, a constructor distinct from the terminal ones). -/
theorem forward_retry_exact_calls :
    (∀ up : Nat → UpstreamResp,
      (∀ a, 1 ≤ a → a ≤ 4 → up a = .status 503) → up 5 = .status 200 →
      (forwardClaudeRun up).calls = 5 ∧ (forwardClaudeRun up).exit = .success 200) ∧
    (∀ up : Nat → UpstreamResp,
      (∀ a, 1 ≤ a → a ≤ 5 → up a = .status 503) →
      (forwardClaudeRun up).calls = 5 ∧ (forwardClaudeRun up).exit = .failover 503) := by
  have h5 : antigravityMaxRetries = 5 := rfl
  constructor
  · intro up h1 hlast
    have run : forwardClaudeRun up = forwardClaudeLoop up 1 4 := rfl
    rw [run,
      claudeLoop_step_retry up 1 3 503 (h1 1 (by omega) (by omega)) (by omega) rfl (by omega),
      claudeLoop_step_retry up 2 2 503 (h1 2 (by omega) (by omega)) (by omega) rfl (by omega),
      claudeLoop_step_retry up 3 1 503 (h1 3 (by omega) (by omega)) (by omega) rfl (by omega),
      claudeLoop_step_retry up 4 0 503 (h1 4 (by omega) (by omega)) (by omega) rfl (by omega),
      claudeLoop_success up 5 0 200 hlast (by omega)]
    exact ⟨rfl, rfl⟩
  · intro up h1
    have run : forwardClaudeRun up = forwardClaudeLoop up 1 4 := rfl
    rw [run,
      claudeLoop_step_retry up 1 3 503 (h1 1 (by omega) (by omega)) (by omega) rfl (by omega),
      claudeLoop_step_retry up 2 2 503 (h1 2 (by omega) (by omega)) (by omega) rfl (by omega),
      claudeLoop_step_retry up 3 1 503 (h1 3 (by omega) (by omega)) (by omega) rfl (by omega),
      claudeLoop_step_retry up 4 0 503 (h1 4 (by omega) (by omega)) (by omega) rfl (by omega),
      claudeLoop_exhaust up 5 0 503 (h1 5 (by omega) (by omega)) (by omega) rfl (by omega)]
    exact ⟨rfl, rfl⟩

/-- C2 (witness). The retry theorem instantiated on concrete stub
upstreams. -/
theorem forward_retry_exact_calls_witness :
    ((forwardClaudeRun (fun a => if a ≤ 4 then .status 503 else .status 200)).calls = 5 ∧
      (forwardClaudeRun (fun a => if a ≤ 4 then .status 503 else .status 200)).exit =
        .success 200) ∧
    ((forwardClaudeRun (fun _ => .status 503)).calls = 5 ∧
      (forwardClaudeRun (fun _ => .status 503)).exit = .failover 503) :=
  ⟨forward_retry_exact_calls.1 (fun a => if a ≤ 4 then .status 503 else .status 200)
      (fun a h1 h2 => by simp [Nat.le_of_lt_succ, h2])
      (by norm_num),
    forward_retry_exact_calls.2 (fun _ => .status 503) (fun a _ _ => rfl)⟩

theorem geminiLoop_step_retry (up : Nat → UpstreamResp) (act : GeminiAction)
    (attempt fuel code : Nat) (hc : up attempt = .status code) (h4 : 400 ≤ code)
    (hr : shouldRetryUpstreamError code = true) (hlt : attempt < antigravityMaxRetries) :
    forwardGeminiLoop up act attempt (fuel + 1) =
      ⟨(forwardGeminiLoop up act (attempt + 1) fuel).calls + 1,
       (if code = 429 then [code] else []) ++
         (forwardGeminiLoop up act (attempt + 1) fuel).notified,
       (forwardGeminiLoop up act (attempt + 1) fuel).exit⟩ := by
  simp only [forwardGeminiLoop, hc, h4, hr, and_self, if_true, hlt]

theorem geminiLoop_exhaust (up : Nat → UpstreamResp) (act : GeminiAction)
    (attempt fuel code : Nat) (hc : up attempt = .status code) (h4 : 400 ≤ code)
    (hr : shouldRetryUpstreamError code = true) (hge : ¬ attempt < antigravityMaxRetries) :
    forwardGeminiLoop up act attempt fuel =
      if act = .countTokens then
        ⟨1, (if code = 429 then [code] else []), .countTokensEstimate⟩
      else
        ⟨1, (if code = 429 then [code] else []) ++ [code],
          if shouldFailoverUpstreamError code then .failover code
          else .terminalError code⟩ := by
  cases fuel <;>
    simp only [forwardGeminiLoop, hc, h4, hr, and_self, if_true, hge, if_false]

/-- C7 (amended). Notification discipline of the retry loops: in
ForwardGemini every retryable 429 notifies immediately — on retried
attempts and on the final attempt alike; in the Claude-protocol Forward a
retried 429 does not notify; the other retryable statuses notify nobody on
retried attempts in either loop; on final exhaustion Forward notifies
(twice for a 429: once in the loop and once in the post-loop handler, once
otherwise), and ForwardGemini does the same for every action except
countTokens, whose exhausted run returns the local estimate from inside the
loop and therefore records only the in-loop 429 notification (none for the
other retryable statuses). -/
theorem rate_limit_notification_discipline :
    (∀ (up : Nat → UpstreamResp) (act : GeminiAction) (attempt fuel : Nat),
      attempt < antigravityMaxRetries → up attempt = .status 429 →
      (forwardGeminiLoop up act attempt (fuel + 1)).notified =
        429 :: (forwardGeminiLoop up act (attempt + 1) fuel).notified) ∧
    (∀ (up : Nat → UpstreamResp) (attempt fuel : Nat),
      attempt < antigravityMaxRetries → up attempt = .status 429 →
      (forwardClaudeLoop up attempt (fuel + 1)).notified =
        (forwardClaudeLoop up (attempt + 1) fuel).notified) ∧
    (∀ (up : Nat → UpstreamResp) (act : GeminiAction) (attempt fuel code : Nat),
      attempt < antigravityMaxRetries → up attempt = .status code → code ≠ 429 →
      400 ≤ code → shouldRetryUpstreamError code = true →
      (forwardClaudeLoop up attempt (fuel + 1)).notified =
        (forwardClaudeLoop up (attempt + 1) fuel).notified ∧
      (forwardGeminiLoop up act attempt (fuel + 1)).notified =
        (forwardGeminiLoop up act (attempt + 1) fuel).notified) ∧
    (∀ (up : Nat → UpstreamResp) (attempt fuel code : Nat),
      ¬ attempt < antigravityMaxRetries → up attempt = .status code →
      400 ≤ code → shouldRetryUpstreamError code = true →
      (forwardClaudeLoop up attempt fuel).notified =
        (if code = 429 then [code] else []) ++ [code]) ∧
    (∀ (up : Nat → UpstreamResp) (act : GeminiAction) (attempt fuel code : Nat),
      ¬ attempt < antigravityMaxRetries → up attempt = .status code →
      400 ≤ code → shouldRetryUpstreamError code = true → act ≠ .countTokens →
      (forwardGeminiLoop up act attempt fuel).notified =
        (if code = 429 then [code] else []) ++ [code]) ∧
    (∀ (up : Nat → UpstreamResp) (attempt fuel code : Nat),
      ¬ attempt < antigravityMaxRetries → up attempt = .status code →
      400 ≤ code → shouldRetryUpstreamError code = true →
      (forwardGeminiLoop up .countTokens attempt fuel).notified =
        (if code = 429 then [code] else [])) := by
  refine ⟨?_, ?_, ?_, ?_, ?_, ?_⟩
  · intro up act attempt fuel hlt hc
    rw [geminiLoop_step_retry up act attempt fuel 429 hc (by omega) rfl hlt]
    simp
  · intro up attempt fuel hlt hc
    rw [claudeLoop_step_retry up attempt fuel 429 hc (by omega) rfl hlt]
  · intro up act attempt fuel code hlt hc hne h4 hr
    constructor
    · rw [claudeLoop_step_retry up attempt fuel code hc h4 hr hlt]
    · rw [geminiLoop_step_retry up act attempt fuel code hc h4 hr hlt]
      simp [hne]
  · intro up attempt fuel code hge hc h4 hr
    rw [claudeLoop_exhaust up attempt fuel code hc h4 hr hge]
  · intro up act attempt fuel code hge hc h4 hr hact
    rw [geminiLoop_exhaust up act attempt fuel code hc h4 hr hge]
    simp [hact]
  · intro up attempt fuel code hge hc h4 hr
    rw [geminiLoop_exhaust up .countTokens attempt fuel code hc h4 hr hge]
    simp

/-- C7 (counterexample). In the Claude-protocol Forward a 429 on attempt 1
that is then retried produces no notification at all: the run retries,
succeeds on attempt 2, and the notified list is empty, refuting "every 429
causes a notification". -/
theorem retried_429_not_notified_in_forward :
    (fun a => if a = 1 then UpstreamResp.status 429 else UpstreamResp.status 200) 1 =
      UpstreamResp.status 429 ∧
    forwardClaudeRun (fun a => if a = 1 then .status 429 else .status 200) =
      ⟨2, [], .success 200⟩ ∧
    ¬ (∀ up : Nat → UpstreamResp, up 1 = .status 429 →
        429 ∈ (forwardClaudeRun up).notified) :=
  ⟨rfl, rfl,
   fun h => absurd (h (fun a => if a = 1 then .status 429 else .status 200) rfl)
     (by decide)⟩

/-- C7 (witness). The notification-discipline theorem instantiated on
concrete loops and statuses. -/
theorem rate_limit_notification_discipline_witness :
    ((forwardGeminiLoop (fun _ => .status 429) .generateContent 1 (3 + 1)).notified =
      429 :: (forwardGeminiLoop (fun _ => .status 429) .generateContent 2 3).notified) ∧
    ((forwardClaudeLoop (fun _ => .status 429) 1 (3 + 1)).notified =
      (forwardClaudeLoop (fun _ => .status 429) 2 3).notified) ∧
    ((forwardClaudeLoop (fun _ => .status 503) 1 (3 + 1)).notified =
      (forwardClaudeLoop (fun _ => .status 503) 2 3).notified) ∧
    ((forwardClaudeLoop (fun _ => .status 503) 5 0).notified = [503]) ∧
    ((forwardGeminiLoop (fun _ => .status 429) .generateContent 5 0).notified =
      [429, 429]) ∧
    ((forwardGeminiLoop (fun _ => .status 503) .generateContent 5 0).notified = [503]) ∧
    ((forwardGeminiLoop (fun _ => .status 429) .countTokens 5 0).notified = [429]) := by
  refine ⟨?_, ?_, ?_, ?_, ?_, ?_, ?_⟩
  · exact rate_limit_notification_discipline.1 (fun _ => .status 429) .generateContent 1 3
      (by decide) rfl
  · exact rate_limit_notification_discipline.2.1 (fun _ => .status 429) 1 3 (by decide) rfl
  · exact (rate_limit_notification_discipline.2.2.1 (fun _ => .status 503) .generateContent
      1 3 503 (by decide) rfl (by decide) (by decide) rfl).1
  · have := rate_limit_notification_discipline.2.2.2.1 (fun _ => .status 503) 5 0 503
      (by decide) rfl (by decide) rfl
    simpa using this
  · have := rate_limit_notification_discipline.2.2.2.2.1 (fun _ => .status 429)
      .generateContent 5 0 429 (by decide) rfl (by decide) rfl (by decide)
    simpa using this
  · have := rate_limit_notification_discipline.2.2.2.2.1 (fun _ => .status 503)
      .generateContent 5 0 503 (by decide) rfl (by decide) rfl (by decide)
    simpa using this
  · have := rate_limit_notification_discipline.2.2.2.2.2 (fun _ => .status 429) 5 0 429
      (by decide) rfl (by decide) rfl
    simpa using this


theorem geminiLoop_success (up : Nat → UpstreamResp) (act : GeminiAction)
    (attempt fuel code : Nat) (hc : up attempt = .status code) (h4 : ¬ 400 ≤ code) :
    forwardGeminiLoop up act attempt fuel = ⟨1, [], .success code⟩ := by
  have hcond : ¬ (400 ≤ code ∧ shouldRetryUpstreamError code = true) := fun h => h4 h.1
  cases fuel <;>
    simp only [forwardGeminiLoop, hc, hcond, if_false, h4, false_and]

theorem geminiCount_safe (up : Nat → UpstreamResp) :
    ∀ (fuel attempt : Nat), attempt + fuel = antigravityMaxRetries →
      (∃ c, ¬ 400 ≤ c ∧
        (forwardGeminiLoop up .countTokens attempt fuel).exit = .success c) ∨
      (forwardGeminiLoop up .countTokens attempt fuel).exit = .countTokensEstimate := by
  intro fuel
  induction fuel with
  | zero =>
    intro attempt hsum
    have ha : attempt = 5 := by simpa [antigravityMaxRetries] using hsum
    subst ha
    have h5 : ¬ (5 < antigravityMaxRetries) := by decide
    cases hc : up 5 with
    | transportError =>
      right
      simp [forwardGeminiLoop, hc, h5]
    | status code =>
      by_cases h4 : 400 ≤ code
      · right
        by_cases hr : shouldRetryUpstreamError code = true
        · simp [forwardGeminiLoop, hc, h4, hr, h5]
        · simp [forwardGeminiLoop, hc, hr, h4]
      · left
        exact ⟨code, h4, by rw [geminiLoop_success up .countTokens 5 0 code hc h4]⟩
  | succ fuel ih =>
    intro attempt hsum
    have hlt : attempt < antigravityMaxRetries := by
      have : antigravityMaxRetries = 5 := rfl
      omega
    have hnext : attempt + 1 + fuel = antigravityMaxRetries := by
      have : antigravityMaxRetries = 5 := rfl
      omega
    cases hc : up attempt with
    | transportError =>
      have step : forwardGeminiLoop up .countTokens attempt (fuel + 1) =
          ⟨(forwardGeminiLoop up .countTokens (attempt + 1) fuel).calls + 1,
           (forwardGeminiLoop up .countTokens (attempt + 1) fuel).notified,
           (forwardGeminiLoop up .countTokens (attempt + 1) fuel).exit⟩ := by
        simp only [forwardGeminiLoop, hc, hlt, if_true]
      rw [step]
      exact ih (attempt + 1) hnext
    | status code =>
      by_cases h4 : 400 ≤ code
      · by_cases hr : shouldRetryUpstreamError code = true
        · rw [geminiLoop_step_retry up .countTokens attempt fuel code hc h4 hr hlt]
          exact ih (attempt + 1) hnext
        · right
          simp [forwardGeminiLoop, hc, hr, h4]
      · left
        exact ⟨code, h4,
          by rw [geminiLoop_success up .countTokens attempt (fuel + 1) code hc h4]⟩

theorem geminiCount_allfail (up : Nat → UpstreamResp)
    (hfail : ∀ a, 1 ≤ a → a ≤ antigravityMaxRetries → upstreamFailed (up a)) :
    ∀ (fuel attempt : Nat), attempt + fuel = antigravityMaxRetries → 1 ≤ attempt →
      (forwardGeminiLoop up .countTokens attempt fuel).exit = .countTokensEstimate := by
  intro fuel
  induction fuel with
  | zero =>
    intro attempt hsum h1
    have ha : attempt = 5 := by simpa [antigravityMaxRetries] using hsum
    subst ha
    have h5 : ¬ (5 < antigravityMaxRetries) := by decide
    cases hc : up 5 with
    | transportError => simp [forwardGeminiLoop, hc, h5]
    | status code =>
      have h4 : 400 ≤ code := by
        have := hfail 5 (by omega) (by decide)
        rw [hc] at this
        exact this
      by_cases hr : shouldRetryUpstreamError code = true
      · simp [forwardGeminiLoop, hc, h4, hr, h5]
      · simp [forwardGeminiLoop, hc, hr, h4]
  | succ fuel ih =>
    intro attempt hsum h1
    have hlt : attempt < antigravityMaxRetries := by
      have : antigravityMaxRetries = 5 := rfl
      omega
    have hnext : attempt + 1 + fuel = antigravityMaxRetries := by
      have : antigravityMaxRetries = 5 := rfl
      omega
    cases hc : up attempt with
    | transportError =>
      have step : forwardGeminiLoop up .countTokens attempt (fuel + 1) =
          ⟨(forwardGeminiLoop up .countTokens (attempt + 1) fuel).calls + 1,
           (forwardGeminiLoop up .countTokens (attempt + 1) fuel).notified,
           (forwardGeminiLoop up .countTokens (attempt + 1) fuel).exit⟩ := by
        simp only [forwardGeminiLoop, hc, hlt, if_true]
      rw [step]
      exact ih (attempt + 1) hnext (by omega)
    | status code =>
      have h4 : 400 ≤ code := by
        have hb : attempt ≤ antigravityMaxRetries := by
          have : antigravityMaxRetries = 5 := rfl
          omega
        have := hfail attempt h1 hb
        rw [hc] at this
        exact this
      by_cases hr : shouldRetryUpstreamError code = true
      · rw [geminiLoop_step_retry up .countTokens attempt fuel code hc h4 hr hlt]
        exact ih (attempt + 1) hnext (by omega)
      · simp [forwardGeminiLoop, hc, hr, h4]

/-- C9. A countTokens call through ForwardGemini never propagates an
upstream failure: every run either passes through an upstream success
(status < 400) or takes the graceful-degradation exit that writes HTTP 200
with a locally estimated totalTokens and returns a successful ForwardResult;
in particular when every attempt fails (transport error or status ≥ 400)
the run ends in the estimate exit. -/
theorem countTokens_degrades_gracefully :
    ∀ up : Nat → UpstreamResp,
      ((∃ c, ¬ 400 ≤ c ∧ (forwardGeminiRun up .countTokens).exit = .success c) ∨
        (forwardGeminiRun up .countTokens).exit = .countTokensEstimate) ∧
      ((∀ a, 1 ≤ a → a ≤ antigravityMaxRetries → upstreamFailed (up a)) →
        (forwardGeminiRun up .countTokens).exit = .countTokensEstimate) :=
  fun up =>
    ⟨geminiCount_safe up 4 1 rfl,
     fun h => geminiCount_allfail up h 4 1 rfl (by omega)⟩

/-- C9 (witness). The degradation theorem instantiated on an upstream that
returns 503 on every attempt. -/
theorem countTokens_degrades_gracefully_witness :
    (forwardGeminiRun (fun _ => .status 503) .countTokens).exit =
      .countTokensEstimate :=
  (countTokens_degrades_gracefully (fun _ => .status 503)).2
    (fun _ _ _ => by simp [upstreamFailed])
